import Mathlib

/-!
Verification of the DeFiLlama protocol-index service
(`src/plugins/plugin-defillama/src/services/defillama.service.ts`) and the
multi-chain wallet-portfolio aggregation
(`src/frontend/components/chat/chat-interface.tsx`, `getTokenInfo`,
`fetchChainBalances` and the `WALLET_INFO` handler) of the SYMBaiEX/otaku
repository, as a shallow embedding in Lean 4.

JavaScript numbers are modelled as exact rationals (`ℚ`), JavaScript strings
as Lean `String`s, and the effectful network environment (fetch outcomes,
clock readings, configuration) as explicit parameters.  String primitives
(`trim`, `toLowerCase`, `toUpperCase`, `startsWith`) are re-implemented over
the underlying character list so that they compute by kernel reduction; they
model the JavaScript behaviour on the ASCII data handled by this code.
-/

namespace Otaku

/-- ASCII model of JavaScript `String.prototype.toLowerCase` on one character. -/
def lowerChar (c : Char) : Char :=
  if 'A' ≤ c ∧ c ≤ 'Z' then Char.ofNat (c.toNat + 32) else c

/-- ASCII model of JavaScript `String.prototype.toUpperCase` on one character. -/
def upperChar (c : Char) : Char :=
  if 'a' ≤ c ∧ c ≤ 'z' then Char.ofNat (c.toNat - 32) else c

/-- Model of JavaScript `String.prototype.toLowerCase` (ASCII case folding). -/
def jsToLower (s : String) : String := ⟨s.data.map lowerChar⟩

/-- Model of JavaScript `String.prototype.toUpperCase` (ASCII case folding). -/
def jsToUpper (s : String) : String := ⟨s.data.map upperChar⟩

/-- Whitespace recognised by the model of `String.prototype.trim`. -/
def isJsWhitespace (c : Char) : Bool :=
  c == ' ' || c == '\t' || c == '\n' || c == '\r'

/-- Model of JavaScript `String.prototype.trim`: strip leading and trailing
whitespace. -/
def jsTrim (s : String) : String :=
  ⟨((s.data.dropWhile isJsWhitespace).reverse.dropWhile isJsWhitespace).reverse⟩

/-- Model of JavaScript `String.prototype.startsWith`. -/
def jsStartsWith (s p : String) : Bool := p.data.isPrefixOf s.data

/-- Model of the JavaScript `||` default idiom `x || d` for string-typed
values: `undefined`/`null` (`none`) and the empty string are falsy. -/
def jsOrString (v : Option String) (d : String) : String :=
  match v with
  | some s => if s = "" then d else s
  | none => d

/-- Model of the JavaScript `||` default idiom `x || d` on a possibly absent
natural number: `undefined` and `0` are falsy. -/
def jsOrNat (v : Option Nat) (d : Nat) : Nat :=
  match v with
  | some n => if n = 0 then d else n
  | none => d

/-- Model of the JavaScript `||` default idiom `x || d` on a possibly absent
number: `undefined` and `0` are falsy. -/
def jsOrRat (v : Option ℚ) (d : ℚ) : ℚ :=
  match v with
  | some q => if q = 0 then d else q
  | none => d

/-! ## DeFiLlama protocol index (`defillama.service.ts`)

`DefiLlamaProtocol` keeps the fields the service reads when matching: `id`,
`name`, the nullable `symbol`, and the optional open-bag field `slug`
(accessed as `(p as any).slug` in the source).  The remaining fields only
flow through `shapeProtocol` unchanged and play no role in any claim. -/

structure DefiLlamaProtocol where
  id : String
  name : String
  symbol : Option String
  slug : Option String
deriving DecidableEq, Repr

/-- `(p.name || "").toLowerCase()` of the source. -/
def lowerName (p : DefiLlamaProtocol) : String := jsToLower p.name

/-- `((p.symbol || "")).toLowerCase()` of the source (null symbol becomes ""). -/
def lowerSymbol (p : DefiLlamaProtocol) : String := jsToLower (jsOrString p.symbol "")

/-- `(p as any).slug ? String((p as any).slug).toLowerCase() : ""` of the source. -/
def lowerSlug (p : DefiLlamaProtocol) : String := jsToLower (jsOrString p.slug "")

/-- One entry of the list returned by `getProtocolsByNames`:
`{ id, success, data?, error? }`.  `data` holds the matched record (the
source passes it through the field projection `shapeProtocol`, which renames
and defaults fields but does not affect which record is picked). -/
structure ResolutionResult where
  id : String
  success : Bool
  data : Option DefiLlamaProtocol
  error : Option String
deriving DecidableEq, Repr

/-- The five sequential matching passes of `getProtocolsByNames`
(service lines 53–57), translated loop by loop: exact lowercase name, exact
nonempty lowercase symbol, exact nonempty lowercase slug, lowercase-name
prefix, lowercase-slug prefix.  Each pass scans the cache in order and stops
at the first hit (`break`), i.e. `List.find?`. -/
def pickProtocol (cache : List DefiLlamaProtocol) (qLower : String) : Option DefiLlamaProtocol :=
  (cache.find? (fun p => lowerName p == qLower)) <|>
  (cache.find? (fun p => !(lowerSymbol p == "") && lowerSymbol p == qLower)) <|>
  (cache.find? (fun p => !(lowerSlug p == "") && lowerSlug p == qLower)) <|>
  (cache.find? (fun p => jsStartsWith (lowerName p) qLower)) <|>
  (cache.find? (fun p => jsStartsWith (lowerSlug p) qLower))

/-- Body of the per-query loop of `getProtocolsByNames` (lines 42–64): trim
the raw query, fail immediately when blank, otherwise match the lowercased
query through the five passes. -/
def resolveOne (cache : List DefiLlamaProtocol) (raw : String) : ResolutionResult :=
  let q := jsTrim raw
  if q = "" then
    { id := q, success := false, data := none, error := some "Empty protocol name" }
  else
    let qLower := jsToLower q
    match pickProtocol cache qLower with
    | some p => { id := q, success := true, data := some p, error := none }
    | none => { id := q, success := false, data := none,
                error := some ("No protocol match for: " ++ q) }

/-! ### Cache state, TTL and refresh -/

/-- Mutable fields of `DefiLlamaService`: the cached generation, its fetch
timestamp, and the TTL (defaults below in `initialCacheState`). -/
structure CacheState where
  cache : List DefiLlamaProtocol
  cacheTimestampMs : ℚ
  ttlMs : ℚ
deriving DecidableEq, Repr

/-- Field initialisers of `DefiLlamaService`: empty cache, timestamp `0`,
`ttlMs = 300000` (5 minutes). -/
def initialCacheState : CacheState :=
  { cache := [], cacheTimestampMs := 0, ttlMs := 300000 }

/-- `maxAttempts` of `loadIndex`. -/
def maxAttempts : Nat := 5

/-- Attempt loop of `loadIndex` (lines 80–102).  `fetch a` is the outcome of
attempt number `a` against the remote catalog: `some list` models a
successful 200 response with JSON body `list`, `none` models any thrown or
non-ok failure of that attempt.  `timeAt a` is the `Date.now()` reading taken
after a successful attempt `a`.  On success the cache is replaced wholesale
and the timestamp advanced; on failure the next attempt runs, and after the
last failed attempt the loop exits leaving the state untouched. -/
def loadIndexGo (fetch : Nat → Option (List DefiLlamaProtocol)) (timeAt : Nat → ℚ)
    (st : CacheState) : Nat → Nat → CacheState
  | _, 0 => st
  | attempt, fuel + 1 =>
    match fetch attempt with
    | some list => { st with cache := list, cacheTimestampMs := timeAt attempt }
    | none => loadIndexGo fetch timeAt st (attempt + 1) fuel

/-- `loadIndex` (lines 76–103): up to `maxAttempts = 5` attempts starting at
attempt 1.  Failures are logged and never re-thrown; `ttlMs` is never
touched. -/
def loadIndex (fetch : Nat → Option (List DefiLlamaProtocol)) (timeAt : Nat → ℚ)
    (st : CacheState) : CacheState :=
  loadIndexGo fetch timeAt st 1 maxAttempts

/-- `ensureFresh` (lines 69–74): reload when the cache is empty or its age
`now - cacheTimestampMs` strictly exceeds `ttlMs`. -/
def ensureFresh (fetch : Nat → Option (List DefiLlamaProtocol)) (timeAt : Nat → ℚ)
    (st : CacheState) (now : ℚ) : CacheState :=
  if st.cache.length = 0 ∨ now - st.cacheTimestampMs > st.ttlMs then
    loadIndex fetch timeAt st
  else st

/-- `getProtocolsByNames` (lines 37–67): first `await this.ensureFresh()`,
then resolve each query in order against the (possibly refreshed) cache.
Returns the post-call service state together with the result list. -/
def getProtocolsByNames (fetch : Nat → Option (List DefiLlamaProtocol)) (timeAt : Nat → ℚ)
    (st : CacheState) (now : ℚ) (names : List String) :
    CacheState × List ResolutionResult :=
  let st₁ := ensureFresh fetch timeAt st now
  (st₁, names.map (resolveOne st₁.cache))

/-! ### TTL configuration (`initialize`, lines 26–33) -/

/-- Digit test/value helpers for the `Number()` model. -/
def digitsVal (cs : List Char) : Nat :=
  cs.foldl (fun n c => n * 10 + (c.toNat - 48)) 0

/-- Model of JavaScript `Number()` string conversion, restricted to the
fragment exercised here: optional sign followed by a decimal literal
(digits, optionally with one fractional point; `"1."` and `".5"` are legal).
The empty/whitespace-only string converts to `0` as in JavaScript.  `none`
models `NaN`.  Exponent, hex, binary and `Infinity` forms are outside the
modelled fragment and map to `none`. -/
def jsNumberOfChars (cs : List Char) : Option ℚ :=
  match cs.splitOn '.' with
  | [ds] =>
    if !ds.isEmpty && ds.all Char.isDigit then some (digitsVal ds) else none
  | [ds, fs] =>
    if (!ds.isEmpty || !fs.isEmpty) && ds.all Char.isDigit && fs.all Char.isDigit then
      some ((digitsVal ds : ℚ) + (digitsVal fs : ℚ) / 10 ^ fs.length)
    else none
  | _ => none

/-- Model of JavaScript `Number()` on a string (see `jsNumberOfChars`). -/
def jsNumber (s : String) : Option ℚ :=
  let t := jsTrim s
  if t = "" then some 0
  else
    match t.data with
    | '-' :: rest => (jsNumberOfChars rest).map (fun q => -q)
    | '+' :: rest => jsNumberOfChars rest
    | cs => jsNumberOfChars cs

/-- TTL-override part of `initialize` (lines 27–31): when the setting is
present and truthy (a nonempty string), parse it with `Number`; adopt it as
`ttlMs` exactly when it is not `NaN` and `≥ 0`; otherwise keep the previous
TTL. -/
def applyTtlSetting (ttlSetting : Option String) (st : CacheState) : CacheState :=
  match ttlSetting with
  | none => st
  | some s =>
    if s = "" then st
    else
      match jsNumber s with
      | none => st
      | some parsed => if 0 ≤ parsed then { st with ttlMs := parsed } else st

/-- `initialize` (lines 26–33): apply the TTL setting, then `loadIndex`. -/
def serviceInitialize (ttlSetting : Option String)
    (fetch : Nat → Option (List DefiLlamaProtocol)) (timeAt : Nat → ℚ)
    (st : CacheState) : CacheState :=
  loadIndex fetch timeAt (applyTtlSetting ttlSetting st)

/-! ## Wallet portfolio (`chat-interface.tsx`)

The wallet flow is driven by network responses; the embedding passes them in
as an explicit per-chain environment.  JavaScript floats are modelled as
exact rationals. -/

/-- `type ChainNetwork = 'base' | 'ethereum' | 'polygon'`. -/
inductive ChainNetwork
  | base
  | ethereum
  | polygon
deriving DecidableEq, Repr

/-- `nativeToken` part of a `ChainConfig`. -/
structure NativeTokenConfig where
  symbol : String
  name : String
  coingeckoId : String
deriving DecidableEq, Repr

/-- `interface ChainConfig`. -/
structure ChainConfig where
  name : String
  rpcUrl : String
  nativeToken : NativeTokenConfig
  coingeckoPlatform : String
deriving DecidableEq, Repr

/-- `CHAIN_CONFIGS` table. -/
def CHAIN_CONFIGS : ChainNetwork → ChainConfig
  | .base =>
    { name := "Base", rpcUrl := "BASE_RPC_URL",
      nativeToken := { symbol := "ETH", name := "Ethereum", coingeckoId := "ethereum" },
      coingeckoPlatform := "base" }
  | .ethereum =>
    { name := "Ethereum", rpcUrl := "ETHEREUM_RPC_URL",
      nativeToken := { symbol := "ETH", name := "Ethereum", coingeckoId := "ethereum" },
      coingeckoPlatform := "ethereum" }
  | .polygon =>
    { name := "Polygon", rpcUrl := "POLYGON_RPC_URL",
      nativeToken := { symbol := "MATIC", name := "Polygon", coingeckoId := "matic-network" },
      coingeckoPlatform := "polygon-pos" }

/-- `interface TokenBalance`.  The source stores the display string
`amount.toFixed(6)` in its `balance` field; the embedding keeps the
underlying numeric `amount` (the rendering affects no claim). -/
structure TokenBalance where
  symbol : String
  name : String
  amount : ℚ
  usdValue : ℚ
  contractAddress : Option String
  chain : ChainNetwork
  decimals : Nat
deriving DecidableEq, Repr

/-- Successful return value of `getTokenInfo`. -/
structure TokenInfo where
  symbol : String
  name : String
  decimals : Nat
  price : ℚ
deriving DecidableEq, Repr

/-- Fields of a successful CoinGecko contract lookup consumed by
`getTokenInfo` (lines 406–414): `data.symbol`, `data.name`,
`data.detail_platforms[platform].decimal_place`,
`data.market_data.current_price.usd`, each possibly absent. -/
structure CgData where
  symbol : Option String
  name : Option String
  decimalPlace : Option Nat
  priceUsd : Option ℚ
deriving DecidableEq, Repr

/-- Result of the three on-chain ERC-20 metadata reads (lines 430–446). -/
structure OnChainMeta where
  symbol : String
  name : String
  decimals : Nat
deriving DecidableEq, Repr

/-- Response shaping of the CoinGecko branch of `getTokenInfo`
(lines 409–414): `(data.symbol || '').toUpperCase()`,
`data.name || 'Unknown Token'`, `decimal_place || 18`, `price.usd || 0`. -/
def shapeCgInfo (d : CgData) : TokenInfo :=
  { symbol := jsToUpper (jsOrString d.symbol "")
    name := jsOrString d.name "Unknown Token"
    decimals := jsOrNat d.decimalPlace 18
    price := jsOrRat d.priceUsd 0 }

/-- Response shaping of the on-chain fallback branch of `getTokenInfo`
(lines 448–453): `(symbol || 'UNKNOWN').toUpperCase()`,
`name || 'Unknown Token'`, `decimals || 18`, price `0`. -/
def shapeOnChainInfo (m : OnChainMeta) : TokenInfo :=
  { symbol := jsToUpper (jsOrString (some m.symbol) "UNKNOWN")
    name := jsOrString (some m.name) "Unknown Token"
    decimals := jsOrNat (some m.decimals) 18
    price := 0 }

/-- `getTokenInfo` (lines 377–460).  `apiKey` is
`process.env.COINGECKO_API_KEY`; `cg` is the CoinGecko outcome for this
contract (`none` covers every failure: timeout, thrown network error, or a
non-ok response, all of which fall through without returning); `onchain` is
the outcome of the three metadata reads (`none` when any of them throws).
When both paths fail the function returns `null`. -/
def getTokenInfo (apiKey : Option String) (cg : Option CgData)
    (onchain : Option OnChainMeta) : Option TokenInfo :=
  let viaCg : Option TokenInfo :=
    if jsOrString apiKey "" = "" then none
    else (cg.map shapeCgInfo)
  match viaCg with
  | some i => some i
  | none =>
    match onchain with
    | some m => some (shapeOnChainInfo m)
    | none => none

/-- One `{contractAddress, tokenBalance}` pair of the
`alchemy_getTokenBalances` response.  `tokenBalance` is the `BigInt` value
of the reported hex string. -/
structure TokenEntry where
  contractAddress : String
  tokenBalance : Nat
deriving DecidableEq, Repr

/-- Network/configuration environment of one `fetchChainBalances` call. -/
structure ChainEnv where
  /-- `process.env[chainConfig.rpcUrl]`; `none` = unset. -/
  rpcUrl : Option String
  /-- Any error thrown inside the outer `try` (transport failure of either
  RPC request, malformed JSON, …), caught at lines 574–577. -/
  transportFail : Bool
  /-- `tokensResponse.ok`. -/
  tokensOk : Bool
  /-- Whether `tokensJson.error` is present (truthy). -/
  rpcError : Bool
  /-- `tokensJson.result.tokenBalances` (defaulting to `[]`). -/
  tokenBalances : List TokenEntry
  /-- `BigInt(nativeJson.result || '0')`, in wei. -/
  nativeBalance : Nat
  /-- `priceData[coingeckoId]?.usd` of the native-price lookup; `none` when
  the lookup throws or the field is absent (price then defaults to 0). -/
  nativePrice : Option ℚ
  /-- CoinGecko outcome per contract address (see `getTokenInfo`). -/
  cg : String → Option CgData
  /-- On-chain metadata outcome per contract address. -/
  onchain : String → Option OnChainMeta

/-- `fetchChainBalances` (lines 463–578) for one chain, given its
environment.  Missing endpoint configuration, a chain-level transport
failure, a non-ok response or an RPC-level error each yield `[]` for the
whole chain.  Otherwise: the native balance is included when positive
(price defaulting to 0 on price-lookup failure), and each nonzero ERC-20
entry is resolved through `getTokenInfo`, a `none` result skipping exactly
that token. -/
def fetchChainBalances (apiKey : Option String) (env : ChainEnv)
    (chain : ChainNetwork) : List TokenBalance :=
  let chainConfig := CHAIN_CONFIGS chain
  if jsOrString env.rpcUrl "" = "" then []
  else if env.transportFail then []
  else if !env.tokensOk then []
  else if env.rpcError then []
  else
    let native : List TokenBalance :=
      if 0 < env.nativeBalance then
        let amount : ℚ := (env.nativeBalance : ℚ) / 10 ^ 18
        let price : ℚ := jsOrRat env.nativePrice 0
        [{ symbol := chainConfig.nativeToken.symbol
           name := chainConfig.nativeToken.name
           amount := amount
           usdValue := amount * price
           contractAddress := none
           chain := chain
           decimals := 18 }]
      else []
    let erc20 : List TokenBalance :=
      env.tokenBalances.filterMap (fun e =>
        if e.tokenBalance = 0 then none
        else
          match getTokenInfo apiKey (env.cg e.contractAddress) (env.onchain e.contractAddress) with
          | some info =>
            let amount : ℚ := (e.tokenBalance : ℚ) / 10 ^ info.decimals
            some { symbol := info.symbol
                   name := info.name
                   amount := amount
                   usdValue := amount * info.price
                   contractAddress := some e.contractAddress
                   chain := chain
                   decimals := info.decimals }
          | none => none)
    native ++ erc20

/-- `const chains: ChainNetwork[] = ['base', 'ethereum', 'polygon']`. -/
def supportedChains : List ChainNetwork := [.base, .ethereum, .polygon]

/-- The sort comparator `(a, b) => b.usdValue - a.usdValue` seen as the
"should `a` come no later than `b`" relation of a stable ascending sort
(ECMAScript `Array.prototype.sort` is stable): `a` precedes `b` exactly when
the comparator is `≤ 0`, i.e. `b.usdValue ≤ a.usdValue`. -/
def tokenLe (a b : TokenBalance) : Bool := decide (b.usdValue ≤ a.usdValue)

/-- One iteration of the `forEach` grouping loop of the handler
(lines 655–658): `if (!byChain[token.chain]) byChain[token.chain] = [];
byChain[token.chain].push(token)` on an insertion-ordered string-keyed
record, modelled as an association list. -/
def groupStep (acc : List (ChainNetwork × List TokenBalance)) (t : TokenBalance) :
    List (ChainNetwork × List TokenBalance) :=
  if acc.any (fun g => g.1 = t.chain) then
    acc.map (fun g => if g.1 = t.chain then (g.1, g.2 ++ [t]) else g)
  else acc ++ [(t.chain, [t])]

/-- `forEach` grouping loop of the handler (lines 654–658). -/
def groupByChain (l : List TokenBalance) : List (ChainNetwork × List TokenBalance) :=
  l.foldl groupStep []

/-- Structured `data` payload built by the `WALLET_INFO` handler
(lines 684–700) plus its `success` flag. -/
structure PortfolioSnapshot where
  totalBalance : ℚ
  tokenCount : Nat
  tokens : List TokenBalance
  byChain : List (ChainNetwork × List TokenBalance)
  success : Bool
deriving DecidableEq, Repr

/-- Fan-out/flatten prefix of the `WALLET_INFO` handler (lines 640–645):
one `fetchChainBalances` call per supported chain, results flattened in
chain order. -/
def allChainBalances (apiKey : Option String) (envOf : ChainNetwork → ChainEnv) :
    List TokenBalance :=
  (supportedChains.map (fun c => fetchChainBalances apiKey (envOf c) c)).flatten

/-- Portfolio computation of the `WALLET_INFO` handler (lines 638–700):
fan out `fetchChainBalances` over the three chains, flatten, total the USD
values, sort descending by USD value (stably), and group by chain.  All
per-chain and per-token failures have already been absorbed into empty/
skipped units, so the handler answers with `success := true`. -/
def walletInfoHandler (apiKey : Option String) (envOf : ChainNetwork → ChainEnv) :
    PortfolioSnapshot :=
  let allBalances := allChainBalances apiKey envOf
  let totalUsdValue := (allBalances.map TokenBalance.usdValue).sum
  let sorted := allBalances.mergeSort tokenLe
  { totalBalance := totalUsdValue
    tokenCount := allBalances.length
    tokens := sorted
    byChain := groupByChain sorted
    success := true }

/-! ## Helper lemmas on the string model -/

/-- Lowercasing preserves (non)emptiness. -/
lemma jsToLower_eq_empty_iff (s : String) : jsToLower s = "" ↔ s = "" := by
  constructor
  · intro h
    have hd : s.data.map lowerChar = [] := congrArg String.data h
    have : s.data = [] := List.map_eq_nil_iff.mp hd
    cases s
    simpa using congrArg String.mk this
  · intro h
    subst h
    rfl

/-- `resolveOne` only looks at the trimmed query text. -/
lemma resolveOne_eq_of_trim_eq (cache : List DefiLlamaProtocol) (r₁ r₂ : String)
    (h : jsTrim r₁ = jsTrim r₂) : resolveOne cache r₁ = resolveOne cache r₂ := by
  simp only [resolveOne, h]

/-- On a blank query, `resolveOne` fails with the fixed error, independently
of the cache. -/
lemma resolveOne_blank (cache : List DefiLlamaProtocol) (raw : String)
    (h : jsTrim raw = "") :
    resolveOne cache raw =
      { id := "", success := false, data := none, error := some "Empty protocol name" } := by
  simp [resolveOne, h]

/-- On a non-blank query, the returned `data` is exactly the pick of the five
matching passes on the lowercased trimmed query. -/
lemma resolveOne_data (cache : List DefiLlamaProtocol) (raw : String)
    (h : jsTrim raw ≠ "") :
    (resolveOne cache raw).data = pickProtocol cache (jsToLower (jsTrim raw)) := by
  simp only [resolveOne, if_neg h]
  cases hp : pickProtocol cache (jsToLower (jsTrim raw)) <;> simp [hp]

/-- On a non-blank query, the `id` field echoes the trimmed query. -/
lemma resolveOne_id (cache : List DefiLlamaProtocol) (raw : String) :
    (resolveOne cache raw).id = jsTrim raw := by
  by_cases h : jsTrim raw = ""
  · simp [resolveOne, h]
  · simp only [resolveOne, if_neg h]
    cases hp : pickProtocol cache (jsToLower (jsTrim raw)) <;> simp [hp]

/-! ## C1 -/

/-- C1: for every input list of query strings, `getProtocolsByNames` returns
exactly one `ResolutionResult` per input query, in input order: the output
has the same length as the input and its `i`-th entry is the resolution of
the `i`-th query (against the post-`ensureFresh` cache). -/
theorem getProtocolsByNames_one_result_per_query
    (fetch : Nat → Option (List DefiLlamaProtocol)) (timeAt : Nat → ℚ)
    (st : CacheState) (now : ℚ) (names : List String) :
    (getProtocolsByNames fetch timeAt st now names).2.length = names.length ∧
    ∀ i : Nat,
      (getProtocolsByNames fetch timeAt st now names).2[i]? =
        (names[i]?).map (resolveOne (ensureFresh fetch timeAt st now).cache) := by
  refine ⟨by simp [getProtocolsByNames], fun i => ?_⟩
  simp [getProtocolsByNames]

/-! ## C9 -/

/-- C9: a blank/whitespace-only query fails immediately with a fixed error,
without consulting the cache (the result is the same for every cache); a
non-blank query matched by no tier yields a descriptive failure naming the
query; and in a batch, each query's result is produced independently, so
neither failure aborts the sibling queries. -/
theorem resolver_failure_isolation :
    (∀ (cache cache' : List DefiLlamaProtocol) (raw : String), jsTrim raw = "" →
      resolveOne cache raw = resolveOne cache' raw ∧
      resolveOne cache raw =
        { id := "", success := false, data := none, error := some "Empty protocol name" }) ∧
    (∀ (cache : List DefiLlamaProtocol) (raw : String), jsTrim raw ≠ "" →
      pickProtocol cache (jsToLower (jsTrim raw)) = none →
      resolveOne cache raw =
        { id := jsTrim raw, success := false, data := none,
          error := some ("No protocol match for: " ++ jsTrim raw) }) ∧
    (∀ (fetch : Nat → Option (List DefiLlamaProtocol)) (timeAt : Nat → ℚ)
       (st : CacheState) (now : ℚ) (pre post : List String) (raw : String),
      (getProtocolsByNames fetch timeAt st now (pre ++ raw :: post)).2 =
        (getProtocolsByNames fetch timeAt st now pre).2 ++
          resolveOne (ensureFresh fetch timeAt st now).cache raw ::
            (getProtocolsByNames fetch timeAt st now post).2) := by
  refine ⟨fun cache cache' raw h => ⟨?_, resolveOne_blank cache raw h⟩,
    fun cache raw h hnone => ?_, fun fetch timeAt st now pre post raw => ?_⟩
  · rw [resolveOne_blank cache raw h, resolveOne_blank cache' raw h]
  · simp [resolveOne, if_neg h, hnone]
  · simp [getProtocolsByNames]

/-- Closed witness for C9 at concrete inputs: the blank query `"   "` and
the unmatched query `"nosuchprotocol"` against the empty cache. -/
theorem resolver_failure_isolation_witness :
    resolveOne [] "   " =
      { id := "", success := false, data := none, error := some "Empty protocol name" } ∧
    resolveOne [] "nosuchprotocol" =
      { id := "nosuchprotocol", success := false, data := none,
        error := some "No protocol match for: nosuchprotocol" } := by
  refine ⟨(resolver_failure_isolation.1 [] [] "   " (by decide)).2, ?_⟩
  have h := resolver_failure_isolation.2.1 [] "nosuchprotocol" (by decide) (by decide)
  simpa using h

/-! ## C10 -/

/-- C10: `getProtocolsByNames` matches each query on its whitespace-trimmed,
lowercased text and echoes the trimmed query as the result's `id`: inputs
with equal trims produce identical results, the `id` is always the trimmed
input, a whitespace-only input is reported with an empty `id`, and for
non-blank queries the matched record is a function of the lowercased trimmed
text. -/
theorem resolver_trims_and_echoes :
    (∀ (cache : List DefiLlamaProtocol) (r₁ r₂ : String), jsTrim r₁ = jsTrim r₂ →
      resolveOne cache r₁ = resolveOne cache r₂) ∧
    (∀ (cache : List DefiLlamaProtocol) (raw : String),
      (resolveOne cache raw).id = jsTrim raw) ∧
    (∀ (cache : List DefiLlamaProtocol) (raw : String), jsTrim raw = "" →
      (resolveOne cache raw).id = "") ∧
    (∀ (cache : List DefiLlamaProtocol) (raw : String), jsTrim raw ≠ "" →
      (resolveOne cache raw).data = pickProtocol cache (jsToLower (jsTrim raw))) :=
  ⟨resolveOne_eq_of_trim_eq, resolveOne_id,
    fun cache raw h => by rw [resolveOne_id, h], resolveOne_data⟩

/-- Closed witness for C10: `" Aave "` and `"Aave  "` trim to the same text
and resolve identically; the whitespace-only input `"  "` gets `id = ""`. -/
theorem resolver_trims_and_echoes_witness :
    resolveOne [] " Aave " = resolveOne [] "Aave  " ∧
    (resolveOne [] " Aave ").id = "Aave" ∧
    (resolveOne [] "  ").id = "" := by
  refine ⟨resolver_trims_and_echoes.1 [] " Aave " "Aave  " (by decide), ?_, ?_⟩
  · rw [resolver_trims_and_echoes.2.1 [] " Aave "]
    decide
  · exact resolver_trims_and_echoes.2.2.1 [] "  " (by decide)

/-! ## C2: tiered matching -/

/-- Tier predicates exactly as the spec (§4.2) words them: exact name, exact
symbol, exact slug, name-prefix, slug-prefix — all on the lowercased
(case-insensitive) text.  This is the spec-side description, to be compared
with the source-side `pickProtocol`. -/
def specTierPredicates (qLower : String) : List (DefiLlamaProtocol → Bool) :=
  [fun p => lowerName p == qLower,
   fun p => lowerSymbol p == qLower,
   fun p => lowerSlug p == qLower,
   fun p => jsStartsWith (lowerName p) qLower,
   fun p => jsStartsWith (lowerSlug p) qLower]

/-- Spec wording "the first tier yielding any match wins; within a tier, the
first record in generation order wins". -/
def firstTierMatch (cache : List DefiLlamaProtocol) :
    List (DefiLlamaProtocol → Bool) → Option DefiLlamaProtocol
  | [] => none
  | pred :: rest =>
    match cache.find? pred with
    | some p => some p
    | none => firstTierMatch cache rest

/-- Spec-worded tiered matcher: lowercase the query and take the first tier
with a match. -/
def specTieredMatch (cache : List DefiLlamaProtocol) (q : String) :
    Option DefiLlamaProtocol :=
  firstTierMatch cache (specTierPredicates (jsToLower q))

lemma firstTierMatch_cons (cache : List DefiLlamaProtocol)
    (pred : DefiLlamaProtocol → Bool) (rest : List (DefiLlamaProtocol → Bool)) :
    firstTierMatch cache (pred :: rest) =
      (cache.find? pred <|> firstTierMatch cache rest) := by
  cases h : cache.find? pred <;> simp [firstTierMatch, h]

/-- For a nonempty query the emptiness guards of the symbol/slug passes are
vacuous, so the source's pick agrees with the spec's tier description. -/
lemma pickProtocol_eq_spec (cache : List DefiLlamaProtocol) (qLower : String)
    (h : qLower ≠ "") :
    pickProtocol cache qLower = firstTierMatch cache (specTierPredicates qLower) := by
  have hsym : (fun p => !(lowerSymbol p == "") && lowerSymbol p == qLower) =
      (fun p => lowerSymbol p == qLower) := by
    funext p
    cases hx : (lowerSymbol p == qLower) with
    | false => simp [hx]
    | true =>
      have he : lowerSymbol p = qLower := by simpa using hx
      simp [hx, he, h]
  have hslug : (fun p => !(lowerSlug p == "") && lowerSlug p == qLower) =
      (fun p => lowerSlug p == qLower) := by
    funext p
    cases hx : (lowerSlug p == qLower) with
    | false => simp [hx]
    | true =>
      have he : lowerSlug p = qLower := by simpa using hx
      simp [hx, he, h]
  simp only [pickProtocol, hsym, hslug, specTierPredicates]
  cases h₁ : cache.find? (fun p => lowerName p == qLower) <;>
  cases h₂ : cache.find? (fun p => lowerSymbol p == qLower) <;>
  cases h₃ : cache.find? (fun p => lowerSlug p == qLower) <;>
  cases h₄ : cache.find? (fun p => jsStartsWith (lowerName p) qLower) <;>
  cases h₅ : cache.find? (fun p => jsStartsWith (lowerSlug p) qLower) <;>
  simp [firstTierMatch, h₁, h₂, h₃, h₄, h₅]

/-- Record `{name:"Aave"}` of the spec's matching-precedence example. -/
def aaveRecord : DefiLlamaProtocol :=
  { id := "1", name := "Aave", symbol := none, slug := none }

/-- Record `{name:"Aave V2"}` of the spec's matching-precedence example. -/
def aaveV2Record : DefiLlamaProtocol :=
  { id := "2", name := "Aave V2", symbol := none, slug := none }

/-- The two-record generation of the spec's matching examples, in generation
order. -/
def demoCache : List DefiLlamaProtocol := [aaveRecord, aaveV2Record]

/-- C2: matching is case-insensitive on the trimmed query and follows the
fixed tier order (exact name, exact symbol, exact slug, name-prefix,
slug-prefix), the first tier with a match winning and, within a tier, the
first record in generation order winning — i.e. the source's pick equals the
spec-worded tiered matcher.  On the records `[{name:"Aave"}, {name:"Aave V2"}]`,
query `"Aave"` returns the exact-name match `{name:"Aave"}` and query `"aa"`
returns the first generation-order prefix match `{name:"Aave"}`. -/
theorem resolver_tier_order :
    (∀ (cache : List DefiLlamaProtocol) (raw : String), jsTrim raw ≠ "" →
      (resolveOne cache raw).data = specTieredMatch cache (jsTrim raw)) ∧
    resolveOne demoCache "Aave" =
      { id := "Aave", success := true, data := some aaveRecord, error := none } ∧
    resolveOne demoCache "aa" =
      { id := "aa", success := true, data := some aaveRecord, error := none } := by
  refine ⟨fun cache raw h => ?_, by decide, by decide⟩
  rw [resolveOne_data cache raw h, specTieredMatch]
  exact pickProtocol_eq_spec cache _ (fun hc => h ((jsToLower_eq_empty_iff _).mp hc))

/-- Closed witness for C2: the general tier-equivalence applied to the demo
generation and the concrete query `" Aave "`. -/
theorem resolver_tier_order_witness :
    (resolveOne demoCache " Aave ").data = specTieredMatch demoCache "Aave" := by
  have e : jsTrim " Aave " = "Aave" := by decide
  have h := resolver_tier_order.1 demoCache " Aave " (by decide)
  rwa [e] at h

/-! ## C5: freshness trigger -/

/-- C5: the default TTL is 300000 ms, and a `getProtocolsByNames` call
triggers exactly one refresh attempt sequence (`loadIndex`) before answering
if and only if the cached generation is empty or its age strictly exceeds
the TTL; otherwise the cached state is used unchanged. -/
theorem ensureFresh_trigger_iff
    (fetch : Nat → Option (List DefiLlamaProtocol)) (timeAt : Nat → ℚ)
    (st : CacheState) (now : ℚ) (names : List String) :
    initialCacheState.ttlMs = 300000 ∧
    ((st.cache.length = 0 ∨ now - st.cacheTimestampMs > st.ttlMs) →
      (getProtocolsByNames fetch timeAt st now names).1 = loadIndex fetch timeAt st ∧
      (getProtocolsByNames fetch timeAt st now names).2 =
        names.map (resolveOne (loadIndex fetch timeAt st).cache)) ∧
    (¬(st.cache.length = 0 ∨ now - st.cacheTimestampMs > st.ttlMs) →
      (getProtocolsByNames fetch timeAt st now names).1 = st ∧
      (getProtocolsByNames fetch timeAt st now names).2 =
        names.map (resolveOne st.cache)) := by
  refine ⟨rfl, fun h => ?_, fun h => ?_⟩
  · have hE : ensureFresh fetch timeAt st now = loadIndex fetch timeAt st := by
      unfold ensureFresh
      rw [if_pos h]
    constructor <;> simp [getProtocolsByNames, hE]
  · have hE : ensureFresh fetch timeAt st now = st := by
      unfold ensureFresh
      rw [if_neg h]
    constructor <;> simp [getProtocolsByNames, hE]

/-- Closed witness for C5: the empty initial generation is stale, so the
refresh runs; a one-record generation of age 0 with the default TTL is
fresh, so the state is untouched. -/
theorem ensureFresh_trigger_iff_witness :
    (getProtocolsByNames (fun _ => none) (fun _ => 0) initialCacheState 0 []).1 =
      loadIndex (fun _ => none) (fun _ => 0) initialCacheState ∧
    (getProtocolsByNames (fun _ => none) (fun _ => 0)
        { cache := [aaveRecord], cacheTimestampMs := 0, ttlMs := 300000 } 0 []).1 =
      { cache := [aaveRecord], cacheTimestampMs := 0, ttlMs := 300000 } := by
  constructor
  · exact ((ensureFresh_trigger_iff (fun _ => none) (fun _ => 0)
      initialCacheState 0 []).2.1 (Or.inl rfl)).1
  · refine ((ensureFresh_trigger_iff (fun _ => none) (fun _ => 0)
      { cache := [aaveRecord], cacheTimestampMs := 0, ttlMs := 300000 } 0 []).2.2 ?_).1
    rintro (h | h)
    · simp at h
    · norm_num at h

/-! ## C4: retry exhaustion -/

/-- C4: when all 5 fetch attempts fail, `loadIndex` leaves the cached
generation and its timestamp (indeed the whole state) unchanged, and
`getProtocolsByNames` still returns normally, resolving against the previous
generation — the failure is never propagated. -/
theorem loadIndex_retry_exhaustion
    (fetch : Nat → Option (List DefiLlamaProtocol)) (timeAt : Nat → ℚ)
    (st : CacheState) (now : ℚ) (names : List String)
    (h : ∀ a, 1 ≤ a → a ≤ 5 → fetch a = none) :
    loadIndex fetch timeAt st = st ∧
    (getProtocolsByNames fetch timeAt st now names).1 = st ∧
    (getProtocolsByNames fetch timeAt st now names).2 =
      names.map (resolveOne st.cache) := by
  have hl : loadIndex fetch timeAt st = st := by
    simp [loadIndex, maxAttempts, loadIndexGo,
      h 1 (by norm_num) (by norm_num), h 2 (by norm_num) (by norm_num),
      h 3 (by norm_num) (by norm_num), h 4 (by norm_num) (by norm_num),
      h 5 (by norm_num) (by norm_num)]
  have he : ensureFresh fetch timeAt st now = st := by
    unfold ensureFresh
    split
    · exact hl
    · rfl
  exact ⟨hl, by simp [getProtocolsByNames, he], by simp [getProtocolsByNames, he]⟩

/-- Closed witness for C4: an always-failing transport leaves the initial
state untouched. -/
theorem loadIndex_retry_exhaustion_witness :
    loadIndex (fun _ => none) (fun _ => 0) initialCacheState = initialCacheState :=
  (loadIndex_retry_exhaustion (fun _ => none) (fun _ => 0) initialCacheState 0 []
    (fun _ _ _ => rfl)).1

/-! ## C8: TTL override parsing -/

/-- Counterexample to C8 as stated: the setting string `"250.5"` is not a
non-negative *integer* millisecond value, yet `initialize` accepts it — the
TTL becomes the non-integer 501/2 ms instead of keeping the default
300000 ms. -/
theorem ttl_setting_fraction_counterexample :
    (applyTtlSetting (some "250.5") initialCacheState).ttlMs = 501 / 2 ∧
    ((501 : ℚ) / 2).den = 2 ∧
    (501 : ℚ) / 2 ≠ 300000 := by
  have hnum : jsNumber "250.5" =
      some ((digitsVal ['2', '5', '0'] : ℚ) +
        (digitsVal ['5'] : ℚ) / 10 ^ (['5'].length)) := rfl
  have d₁ : digitsVal ['2', '5', '0'] = 250 := by decide
  have d₂ : digitsVal ['5'] = 5 := by decide
  have h₂ : applyTtlSetting (some "250.5") initialCacheState =
      if (0 : ℚ) ≤ (digitsVal ['2', '5', '0'] : ℚ) + (digitsVal ['5'] : ℚ) / 10 ^ 1
      then { initialCacheState with
              ttlMs := (digitsVal ['2', '5', '0'] : ℚ) + (digitsVal ['5'] : ℚ) / 10 ^ 1 }
      else initialCacheState := rfl
  refine ⟨?_, by norm_num [Rat.den_div_eq_of_coprime], by norm_num⟩
  rw [h₂, if_pos (by positivity)]
  show (digitsVal ['2', '5', '0'] : ℚ) + (digitsVal ['5'] : ℚ) / 10 ^ 1 = 501 / 2
  rw [d₁, d₂]
  norm_num

/-- C8 (amended): the TTL override accepts any setting string that
`Number()` parses to a non-negative — possibly fractional — value; a missing
setting, an empty string, a NaN parse or a negative value is ignored and the
previous TTL kept; the default TTL is 300000 ms. -/
theorem ttl_setting_nonnegative_number (st : CacheState) :
    (∀ (s : String) (q : ℚ), s ≠ "" → jsNumber s = some q → 0 ≤ q →
      applyTtlSetting (some s) st = { st with ttlMs := q }) ∧
    (∀ (s : String) (q : ℚ), s ≠ "" → jsNumber s = some q → q < 0 →
      applyTtlSetting (some s) st = st) ∧
    (∀ s : String, s ≠ "" → jsNumber s = none → applyTtlSetting (some s) st = st) ∧
    applyTtlSetting (some "") st = st ∧
    applyTtlSetting none st = st ∧
    initialCacheState.ttlMs = 300000 := by
  refine ⟨fun s q hs hq hnn => ?_, fun s q hs hq hneg => ?_, fun s hs hq => ?_,
    by simp [applyTtlSetting], rfl, rfl⟩
  · simp [applyTtlSetting, hs, hq, hnn]
  · simp [applyTtlSetting, hs, hq, not_le.mpr hneg]
  · simp [applyTtlSetting, hs, hq]

/-- Closed witness for C8 (amended): the setting `"1000"` is adopted as TTL. -/
theorem ttl_setting_nonnegative_number_witness :
    applyTtlSetting (some "1000") initialCacheState =
      { initialCacheState with ttlMs := 1000 } := by
  have hnum : jsNumber "1000" = some ((digitsVal ['1', '0', '0', '0'] : ℚ)) := rfl
  have d : digitsVal ['1', '0', '0', '0'] = 1000 := by decide
  rw [d] at hnum
  exact (ttl_setting_nonnegative_number initialCacheState).1 "1000" 1000
    (by decide) (by exact_mod_cast hnum) (by norm_num)

/-! ## C6: layered price resolution -/

/-- C6: with credentials configured, the pricing API is consulted first and a
successful response is used as-is; on any pricing-API failure (or missing
credentials) the on-chain metadata read is used with price 0; when both
paths fail the resolver yields no result, and `fetchChainBalances` then
skips exactly that token, leaving the rest of the chain's results
unchanged. -/
theorem price_fallback_layering :
    (∀ (k : String) (d : CgData) (onchain : Option OnChainMeta), k ≠ "" →
      getTokenInfo (some k) (some d) onchain = some (shapeCgInfo d)) ∧
    (∀ (apiKey : Option String) (cg : Option CgData) (m : OnChainMeta),
      jsOrString apiKey "" = "" ∨ cg = none →
      getTokenInfo apiKey cg (some m) = some (shapeOnChainInfo m) ∧
      (shapeOnChainInfo m).price = 0) ∧
    (∀ (apiKey : Option String) (cg : Option CgData),
      jsOrString apiKey "" = "" ∨ cg = none →
      getTokenInfo apiKey cg none = none) ∧
    (∀ (apiKey : Option String) (env : ChainEnv) (chain : ChainNetwork)
       (pre post : List TokenEntry) (e : TokenEntry),
      env.tokenBalances = pre ++ e :: post →
      getTokenInfo apiKey (env.cg e.contractAddress) (env.onchain e.contractAddress) = none →
      fetchChainBalances apiKey env chain =
        fetchChainBalances apiKey { env with tokenBalances := pre ++ post } chain) := by
  refine ⟨fun k d onchain hk => ?_, fun apiKey cg m h => ?_, fun apiKey cg h => ?_,
    fun apiKey env chain pre post e hbal hnone => ?_⟩
  · simp [getTokenInfo, jsOrString, hk]
  · rcases h with h | h
    · refine ⟨?_, rfl⟩
      simp [getTokenInfo, h]
    · subst h
      refine ⟨?_, rfl⟩
      by_cases hk : jsOrString apiKey "" = "" <;> simp [getTokenInfo, hk]
  · rcases h with h | h
    · simp [getTokenInfo, h]
    · subst h
      simp [getTokenInfo]
  · simp only [fetchChainBalances, hbal]
    split
    · rfl
    split
    · rfl
    split
    · rfl
    split
    · rfl
    have hfe : ∀ f : TokenEntry → Option TokenBalance,
        f e = none →
        (pre ++ e :: post).filterMap f = (pre ++ post).filterMap f := by
      intro f hf
      simp [List.filterMap_append, List.filterMap_cons, hf]
    refine congrArg _ (hfe _ ?_)
    by_cases h0 : e.tokenBalance = 0
    · simp [h0]
    · simp [h0, hnone]

/-- CoinGecko response used in the C6 witness and the C3 demo scenario:
a USDC-like token priced at $100 with 6 decimals. -/
def demoCg : CgData :=
  { symbol := some "usdc", name := some "USD Coin", decimalPlace := some 6,
    priceUsd := some 100 }

/-- On-chain metadata used in the C6 witness. -/
def demoOnChain : OnChainMeta :=
  { symbol := "WETH", name := "Wrapped Ether", decimals := 18 }

/-- Chain environment with one priceable token and one token whose price
resolution fails on both paths, used in the C6 witness. -/
def demoMixedEnv : ChainEnv :=
  { rpcUrl := some "https://base.example"
    transportFail := false
    tokensOk := true
    rpcError := false
    tokenBalances := [{ contractAddress := "0xa0b8", tokenBalance := 1000000 },
                      { contractAddress := "0xdead", tokenBalance := 5 }]
    nativeBalance := 0
    nativePrice := none
    cg := fun a => if a = "0xa0b8" then some demoCg else none
    onchain := fun _ => none }

/-- Closed witness for C6 at concrete inputs: a credentialed successful
lookup, a fallback with price 0, a double failure, and a chain whose
unresolvable token is skipped while its sibling token is kept. -/
theorem price_fallback_layering_witness :
    getTokenInfo (some "key") (some demoCg) none = some (shapeCgInfo demoCg) ∧
    getTokenInfo none none (some demoOnChain) = some (shapeOnChainInfo demoOnChain) ∧
    getTokenInfo none none none = none ∧
    fetchChainBalances (some "key") demoMixedEnv .base =
      fetchChainBalances (some "key")
        { demoMixedEnv with
            tokenBalances := [{ contractAddress := "0xa0b8", tokenBalance := 1000000 }] }
        .base := by
  refine ⟨price_fallback_layering.1 "key" demoCg none (by decide), ?_, ?_, ?_⟩
  · exact (price_fallback_layering.2.1 none none demoOnChain (Or.inl rfl)).1
  · exact price_fallback_layering.2.2.1 none none (Or.inl rfl)
  · exact price_fallback_layering.2.2.2 (some "key") demoMixedEnv .base
      [{ contractAddress := "0xa0b8", tokenBalance := 1000000 }] []
      { contractAddress := "0xdead", tokenBalance := 5 } rfl rfl

/-! ## C3: per-chain failure isolation in the portfolio -/

/-- Chain-A environment of the spec's partial-aggregation example: a healthy
endpoint returning one nonzero ERC-20 balance whose credentialed price
lookup values it at $100. -/
def demoBaseEnv : ChainEnv :=
  { rpcUrl := some "https://base.example"
    transportFail := false
    tokensOk := true
    rpcError := false
    tokenBalances := [{ contractAddress := "0xa0b8", tokenBalance := 1000000 }]
    nativeBalance := 0
    nativePrice := none
    cg := fun a => if a = "0xa0b8" then some demoCg else none
    onchain := fun _ => none }

/-- Chain-B environment of the example: configured endpoint, transport
failure. -/
def demoFailEnv : ChainEnv :=
  { rpcUrl := some "https://eth.example"
    transportFail := true
    tokensOk := true
    rpcError := false
    tokenBalances := []
    nativeBalance := 0
    nativePrice := none
    cg := fun _ => none
    onchain := fun _ => none }

/-- Chain-C environment of the example: endpoint not configured. -/
def demoMissingEnv : ChainEnv :=
  { rpcUrl := none
    transportFail := false
    tokensOk := true
    rpcError := false
    tokenBalances := []
    nativeBalance := 0
    nativePrice := none
    cg := fun _ => none
    onchain := fun _ => none }

/-- Per-chain environments of the partial-aggregation example. -/
def demoEnvOf : ChainNetwork → ChainEnv
  | .base => demoBaseEnv
  | .ethereum => demoFailEnv
  | .polygon => demoMissingEnv

/-- The single $100 token produced by the example's healthy chain. -/
def demoToken : TokenBalance :=
  { symbol := "USDC", name := "USD Coin", amount := 1, usdValue := 100,
    contractAddress := some "0xa0b8", chain := .base, decimals := 6 }

lemma demoBase_fetch :
    fetchChainBalances (some "cg-key") demoBaseEnv .base = [demoToken] := by
  have h : fetchChainBalances (some "cg-key") demoBaseEnv .base =
      [{ symbol := "USDC", name := "USD Coin",
         amount := ((1000000 : ℕ) : ℚ) / 10 ^ 6,
         usdValue := ((1000000 : ℕ) : ℚ) / 10 ^ 6 * 100,
         contractAddress := some "0xa0b8", chain := .base, decimals := 6 }] := rfl
  rw [h]
  have e₁ : ((1000000 : ℕ) : ℚ) / 10 ^ 6 = 1 := by norm_num
  rw [e₁]
  norm_num [demoToken]

/-- C3: a chain with a missing endpoint configuration or a chain-level
transport failure contributes an empty result, and in the example scenario —
chain A holding one $100 token, chain B failing on transport, chain C
unconfigured — the handler still answers with total $100, tokenCount 1, the
single token, and success true. -/
theorem chain_failure_isolation :
    (∀ (apiKey : Option String) (env : ChainEnv) (chain : ChainNetwork),
      jsOrString env.rpcUrl "" = "" ∨ env.transportFail = true →
      fetchChainBalances apiKey env chain = []) ∧
    walletInfoHandler (some "cg-key") demoEnvOf =
      { totalBalance := 100, tokenCount := 1, tokens := [demoToken],
        byChain := [(.base, [demoToken])], success := true } := by
  constructor
  · rintro apiKey env chain (h | h)
    · simp [fetchChainBalances, h]
    · simp [fetchChainBalances, h]
  · have heth : fetchChainBalances (some "cg-key") demoFailEnv .ethereum = [] := rfl
    have hpoly : fetchChainBalances (some "cg-key") demoMissingEnv .polygon = [] := rfl
    have hall : allChainBalances (some "cg-key") demoEnvOf = [demoToken] := by
      simp [allChainBalances, supportedChains, demoEnvOf, demoBase_fetch, heth, hpoly]
    have hsort : [demoToken].mergeSort tokenLe = [demoToken] :=
      List.perm_singleton.mp (List.mergeSort_perm [demoToken] tokenLe)
    simp [walletInfoHandler, hall, hsort, groupByChain, groupStep, demoToken]

/-- Closed witness for C3: the transport-failing and unconfigured chains of
the example each contribute the empty result. -/
theorem chain_failure_isolation_witness :
    fetchChainBalances (some "cg-key") demoFailEnv .ethereum = [] ∧
    fetchChainBalances (some "cg-key") demoMissingEnv .polygon = [] :=
  ⟨chain_failure_isolation.1 (some "cg-key") demoFailEnv .ethereum (Or.inr rfl),
   chain_failure_isolation.1 (some "cg-key") demoMissingEnv .polygon (Or.inl rfl)⟩

/-! ## C7: snapshot shape

`firstSeenChains` expresses the spec's "first-seen chain order";
`groupRec` is a recursion-friendly restatement of the grouping loop, proved
equal to the source's `groupByChain` below. -/

/-- Chains of a token list in order of first appearance. -/
def firstSeenChains : List TokenBalance → List ChainNetwork
  | [] => []
  | t :: rest => t.chain :: firstSeenChains (rest.filter (fun u => ¬(u.chain = t.chain)))
termination_by l => l.length
decreasing_by
  simp_wf
  exact Nat.lt_succ_of_le (List.length_filter_le _ _)

/-- Recursive description of chain grouping: the first token opens the first
group, which collects all tokens of that chain in order; the remaining
tokens are grouped recursively. -/
def groupRec : List TokenBalance → List (ChainNetwork × List TokenBalance)
  | [] => []
  | t :: rest =>
    (t.chain, t :: rest.filter (fun u => u.chain = t.chain)) ::
      groupRec (rest.filter (fun u => ¬(u.chain = t.chain)))
termination_by l => l.length
decreasing_by
  simp_wf
  exact Nat.lt_succ_of_le (List.length_filter_le _ _)

lemma mem_firstSeenChains :
    ∀ (n : Nat) (l : List TokenBalance), l.length ≤ n →
      ∀ c ∈ firstSeenChains l, ∃ t ∈ l, t.chain = c := by
  intro n
  induction n with
  | zero =>
    intro l hl c hc
    rw [Nat.le_zero, List.length_eq_zero] at hl
    subst hl
    rw [firstSeenChains] at hc
    cases hc
  | succ n ih =>
    intro l hl c hc
    cases l with
    | nil =>
      rw [firstSeenChains] at hc
      cases hc
    | cons t rest =>
      rw [firstSeenChains] at hc
      rcases List.mem_cons.mp hc with h | h
      · exact ⟨t, List.mem_cons_self _ _, h.symm⟩
      · have hlen : (rest.filter (fun u => decide ¬(u.chain = t.chain))).length ≤ n :=
          le_trans (List.length_filter_le _ _) (Nat.succ_le_succ_iff.mp hl)
        obtain ⟨u, hu, huc⟩ := ih _ hlen c h
        exact ⟨u, List.mem_cons_of_mem _ (List.mem_of_mem_filter hu), huc⟩

lemma foldl_groupStep :
    ∀ (l : List TokenBalance) (acc : List (ChainNetwork × List TokenBalance)),
      (acc.map Prod.fst).Nodup →
      l.foldl groupStep acc =
        acc.map (fun g => (g.1, g.2 ++ l.filter (fun t => t.chain = g.1))) ++
        groupRec (l.filter (fun t => !(acc.any (fun g => g.1 = t.chain)))) := by
  intro l
  induction l with
  | nil =>
    intro acc hacc
    simp [groupRec]
  | cons t rest ih =>
    intro acc hacc
    rw [List.foldl_cons]
    by_cases hmem : acc.any (fun g => g.1 = t.chain) = true
    · have hstep : groupStep acc t =
          acc.map (fun g => if g.1 = t.chain then (g.1, g.2 ++ [t]) else g) := by
        rw [groupStep, if_pos hmem]
      have hfst : ∀ g : ChainNetwork × List TokenBalance,
          (if g.1 = t.chain then (g.1, g.2 ++ [t]) else g).1 = g.1 := by
        intro g
        by_cases hc : g.1 = t.chain <;> simp [hc]
      have hkeys : ((acc.map (fun g => if g.1 = t.chain then (g.1, g.2 ++ [t]) else g)).map
          Prod.fst) = acc.map Prod.fst := by
        rw [List.map_map]
        exact List.map_congr_left (fun g _ => hfst g)
      rw [hstep, ih _ (hkeys ▸ hacc)]
      have hmap : (acc.map (fun g => if g.1 = t.chain then (g.1, g.2 ++ [t]) else g)).map
            (fun g => (g.1, g.2 ++ rest.filter (fun u => u.chain = g.1))) =
          acc.map (fun g => (g.1, g.2 ++ (t :: rest).filter (fun u => u.chain = g.1))) := by
        rw [List.map_map]
        refine List.map_congr_left (fun g _ => ?_)
        by_cases hc : g.1 = t.chain
        · simp only [Function.comp_apply, if_pos hc, List.filter_cons]
          rw [if_pos (by simp [hc])]
          simp
        · simp only [Function.comp_apply, if_neg hc, List.filter_cons]
          rw [if_neg (by simpa using fun h => hc h.symm)]
      have hanyeq : ∀ u : TokenBalance,
          ((acc.map (fun g => if g.1 = t.chain then (g.1, g.2 ++ [t]) else g)).any
            (fun g => g.1 = u.chain)) = acc.any (fun g => g.1 = u.chain) := by
        intro u
        rw [List.any_map]
        refine congrArg _ (funext fun g => ?_)
        simp [Function.comp_apply, hfst g]
      have hfilter : rest.filter
            (fun u => !((acc.map (fun g => if g.1 = t.chain then (g.1, g.2 ++ [t]) else g)).any
              (fun g => g.1 = u.chain))) =
          (t :: rest).filter (fun u => !(acc.any (fun g => g.1 = u.chain))) := by
        rw [List.filter_cons, if_neg (by simp [hmem])]
        exact List.filter_congr (fun u _ => by rw [hanyeq u])
      rw [hmap, hfilter]
    · have hstep : groupStep acc t = acc ++ [(t.chain, [t])] := by
        rw [groupStep, if_neg hmem]
      have hnotin : ∀ g ∈ acc, ¬(g.1 = t.chain) := by
        intro g hg hc
        exact hmem (List.any_eq_true.mpr ⟨g, hg, by simp [hc]⟩)
      have hnd : ((acc ++ [(t.chain, [t])]).map Prod.fst).Nodup := by
        rw [List.map_append, List.nodup_append]
        refine ⟨hacc, by simp, ?_⟩
        simp only [List.map_cons, List.map_nil]
        rw [List.disjoint_singleton]
        intro hmemk
        obtain ⟨g, hg, hfst⟩ := List.mem_map.mp hmemk
        exact hnotin g hg hfst
      rw [hstep, ih _ hnd]
      have hconsfilter : (t :: rest).filter (fun u => !(acc.any (fun g => g.1 = u.chain))) =
          t :: rest.filter (fun u => !(acc.any (fun g => g.1 = u.chain))) := by
        rw [List.filter_cons, if_pos (by simp [hmem])]
      rw [hconsfilter, groupRec]
      have hmapacc : acc.map (fun g => (g.1, g.2 ++ rest.filter (fun u => u.chain = g.1))) =
          acc.map (fun g => (g.1, g.2 ++ (t :: rest).filter (fun u => u.chain = g.1))) := by
        refine List.map_congr_left (fun g hg => ?_)
        rw [List.filter_cons, if_neg (by simpa using fun h => hnotin g hg h.symm)]
      have hnewgroup : rest.filter (fun u => u.chain = t.chain) =
          (rest.filter (fun u => !(acc.any (fun g => g.1 = u.chain)))).filter
            (fun u => u.chain = t.chain) := by
        rw [List.filter_comm]
        refine (List.filter_eq_self.mpr ?_).symm
        intro u hu
        have huc : u.chain = t.chain := by simpa using List.of_mem_filter hu
        simp only [Bool.not_eq_true']
        rw [List.any_eq_false]
        intro g hg
        simpa [huc] using fun h => hnotin g hg h
      have htail : rest.filter
            (fun u => !((acc ++ [(t.chain, [t])]).any (fun g => g.1 = u.chain))) =
          (rest.filter (fun u => !(acc.any (fun g => g.1 = u.chain)))).filter
            (fun u => ¬(u.chain = t.chain)) := by
        rw [List.filter_filter]
        refine List.filter_congr (fun u _ => ?_)
        rw [List.any_append]
        simp [eq_comm, Bool.and_comm]
      rw [List.map_append, htail, hmapacc]
      simp only [List.map_cons, List.map_nil, List.singleton_append]
      rw [hnewgroup]
      simp [List.append_assoc]

/-- The grouping loop of the handler computes exactly the recursive
grouping description. -/
lemma groupByChain_eq_groupRec (l : List TokenBalance) : groupByChain l = groupRec l := by
  have h := foldl_groupStep l [] (by simp)
  simpa [groupByChain, List.filter_true] using h

/-- The recursive grouping is the first-seen chain list paired with the
filter of each chain. -/
lemma groupRec_eq_firstSeen :
    ∀ (n : Nat) (l : List TokenBalance), l.length ≤ n →
      groupRec l =
        (firstSeenChains l).map (fun c => (c, l.filter (fun t => t.chain = c))) := by
  intro n
  induction n with
  | zero =>
    intro l hl
    rw [Nat.le_zero, List.length_eq_zero] at hl
    subst hl
    rw [groupRec, firstSeenChains]
    rfl
  | succ n ih =>
    intro l hl
    cases l with
    | nil =>
      rw [groupRec, firstSeenChains]
      rfl
    | cons t rest =>
      rw [groupRec, firstSeenChains, List.map_cons]
      have hlen : (rest.filter (fun u => decide ¬(u.chain = t.chain))).length ≤ n :=
        le_trans (List.length_filter_le _ _) (Nat.succ_le_succ_iff.mp hl)
      rw [ih _ hlen]
      congr 1
      · rw [List.filter_cons, if_pos (by simp)]
      · refine List.map_congr_left (fun c hc => ?_)
        obtain ⟨u, hu, huc⟩ := mem_firstSeenChains _ _ le_rfl c hc
        have hne : ¬(c = t.chain) := by
          have := List.of_mem_filter hu
          simp only [decide_eq_true_eq] at this
          exact fun hct => this (huc.symm ▸ hct)
        have hne' : ¬(t.chain = c) := fun hct => hne hct.symm
        have h₁ : (rest.filter (fun u => decide ¬(u.chain = t.chain))).filter
              (fun u => u.chain = c) = rest.filter (fun u => u.chain = c) := by
          rw [List.filter_comm]
          refine List.filter_eq_self.mpr (fun u hu₂ => ?_)
          have huc₂ : u.chain = c := by simpa using List.of_mem_filter hu₂
          simp [huc₂, hne]
        have h₂ : (t :: rest).filter (fun u => u.chain = c) =
            rest.filter (fun u => u.chain = c) := by
          rw [List.filter_cons, if_neg (by simp [hne'])]
        rw [h₁, h₂]

/-- Source-level corollary: the handler's `byChain` record lists the chains
in first-seen order, each paired with all tokens of that chain in order. -/
lemma groupByChain_eq_firstSeen (l : List TokenBalance) :
    groupByChain l =
      (firstSeenChains l).map (fun c => (c, l.filter (fun t => t.chain = c))) := by
  rw [groupByChain_eq_groupRec]
  exact groupRec_eq_firstSeen l.length l le_rfl

/-! Stable-sort lemmas for the handler's comparator. -/

lemma tokenLe_trans : ∀ a b c : TokenBalance,
    tokenLe a b = true → tokenLe b c = true → tokenLe a c = true := by
  intro a b c hab hbc
  simp only [tokenLe, decide_eq_true_eq] at *
  exact le_trans hbc hab

lemma tokenLe_total : ∀ a b : TokenBalance, (tokenLe a b || tokenLe b a) = true := by
  intro a b
  simp only [tokenLe, Bool.or_eq_true, decide_eq_true_eq]
  exact le_total b.usdValue a.usdValue

/-- Stability of the handler's sort: tokens of any fixed USD value appear in
the sorted list exactly as they appeared in the input ("ties keep their
original relative order"). -/
lemma mergeSort_tokenLe_stable (l : List TokenBalance) (v : ℚ) :
    (l.mergeSort tokenLe).filter (fun t => t.usdValue = v) =
      l.filter (fun t => t.usdValue = v) := by
  have hall : ∀ u ∈ l.filter (fun t => t.usdValue = v), u.usdValue = v := by
    intro u hu
    simpa using List.of_mem_filter hu
  have hpw : List.Pairwise (fun a b => tokenLe a b = true)
      (l.filter (fun t => t.usdValue = v)) := by
    refine List.pairwise_of_forall_mem_list (fun a ha b hb => ?_)
    simp [tokenLe, hall a ha, hall b hb]
  have hsub : (l.filter (fun t => t.usdValue = v)).Sublist (l.mergeSort tokenLe) :=
    List.sublist_mergeSort tokenLe_trans tokenLe_total hpw (List.filter_sublist l)
  have hsame : (l.filter (fun t => t.usdValue = v)).filter (fun t => t.usdValue = v) =
      l.filter (fun t => t.usdValue = v) :=
    List.filter_eq_self.mpr (fun u hu => by simp [hall u hu])
  have hsub₂ : (l.filter (fun t => t.usdValue = v)).Sublist
      ((l.mergeSort tokenLe).filter (fun t => t.usdValue = v)) := by
    have := hsub.filter (fun t => decide (t.usdValue = v))
    rwa [hsame] at this
  have hperm : ((l.mergeSort tokenLe).filter (fun t => t.usdValue = v)).Perm
      (l.filter (fun t => t.usdValue = v)) :=
    (List.mergeSort_perm l tokenLe).filter _
  exact (hsub₂.eq_of_length hperm.length_eq.symm).symm

/-- C7: the snapshot flattens all per-chain results; its total is the sum of
every token's usdValue; its token list is a permutation of the flattened
list sorted descending by usdValue, ties keeping their original relative
order (for every value `v`, the `v`-valued tokens appear exactly as in the
flattened list); and `byChain` groups the tokens by chain in first-seen
chain order, each group holding that chain's tokens in order. -/
theorem portfolio_snapshot_shape (apiKey : Option String)
    (envOf : ChainNetwork → ChainEnv) :
    (walletInfoHandler apiKey envOf).totalBalance =
      ((allChainBalances apiKey envOf).map TokenBalance.usdValue).sum ∧
    (walletInfoHandler apiKey envOf).tokenCount =
      (allChainBalances apiKey envOf).length ∧
    (walletInfoHandler apiKey envOf).tokens.Perm (allChainBalances apiKey envOf) ∧
    List.Pairwise (fun a b : TokenBalance => b.usdValue ≤ a.usdValue)
      (walletInfoHandler apiKey envOf).tokens ∧
    (∀ v : ℚ,
      (walletInfoHandler apiKey envOf).tokens.filter (fun t => t.usdValue = v) =
        (allChainBalances apiKey envOf).filter (fun t => t.usdValue = v)) ∧
    (walletInfoHandler apiKey envOf).byChain =
      (firstSeenChains (walletInfoHandler apiKey envOf).tokens).map
        (fun c => (c, (walletInfoHandler apiKey envOf).tokens.filter
          (fun t => t.chain = c))) := by
  refine ⟨rfl, rfl, List.mergeSort_perm _ tokenLe, ?_,
    fun v => mergeSort_tokenLe_stable _ v, groupByChain_eq_firstSeen _⟩
  refine (List.sorted_mergeSort tokenLe_trans tokenLe_total
    (allChainBalances apiKey envOf)).imp (fun h => ?_)
  simpa [tokenLe] using h

end Otaku
